import Mathlib

/-
Shallow embedding of `main.py`, a static HTML file server built on
`http.server.SimpleHTTPRequestHandler`.

Modelling boundary:
* The file system is a symlink-free tree of directories and regular files.
  On such a tree, Python's `Path.resolve()` (non-strict) is exactly lexical
  normalization: drop empty and `.` components, let `..` pop the previous
  component (a no-op at the root).  `pathlib` itself already drops empty and
  `.` components at construction.
* A request is represented by its percent-decoded path component (the result
  of `unquote(urlparse(self.path).path)` in `do_GET`), exactly the value the
  handler's branches inspect.
* `BaseHTTPRequestHandler.send_response` always prepends two library headers,
  `Server: <version string>` and `Date: <formatdate(time.time(), usegmt=True)>`,
  before any header the handler sets.  The handler-set headers are the
  `headers` field of `Response`; `wire_headers` adds the two library headers,
  parameterized by the server version string and the current Unix time.
* File reads (`open(file_path, "rb")` / `f.read()`) may raise `OSError`; the
  read outcome is threaded as a boolean oracle `readOk` (`true` = the read
  succeeds and returns the file's stored bytes).
-/

namespace HtmlServer

/-- A node of the served file-system tree: a regular file with its byte
contents, or a directory with a list of named children. -/
inductive Entry where
  | file (content : List Nat)
  | dir (entries : List (String × Entry))

/-- Look a name up in a directory's child list (first match). -/
def findEntry (entries : List (String × Entry)) (name : String) : Option Entry :=
  match entries with
  | [] => none
  | (n, e) :: rest => if n = name then some e else findEntry rest name

/-- Walk an absolute, already-normalized component list down the tree. -/
def lookup : Entry → List String → Option Entry
  | e, [] => some e
  | .file _, _ :: _ => none
  | .dir es, c :: cs =>
    match findEntry es c with
    | none => none
    | some e => lookup e cs

/-- Python `Path.is_file()` on a node of the tree. -/
def is_file : Entry → Bool
  | .file _ => true
  | .dir _ => false

/-- Python `path.lstrip("/")`: remove every leading slash. -/
def lstripSlash (s : String) : String :=
  ⟨s.data.dropWhile (fun c => c = '/')⟩

/-- Split a character list at every slash (like `str.split('/')`). -/
def splitOnSlash : List Char → List (List Char)
  | [] => [[]]
  | c :: cs =>
    if c = '/' then [] :: splitOnSlash cs
    else
      match splitOnSlash cs with
      | [] => [[c]]
      | g :: gs => (c :: g) :: gs

/-- Components of a path as the `pathlib.PurePosixPath` constructor keeps
them: split on slashes, drop empty components and lone dots. -/
def pathParts (s : String) : List String :=
  ((splitOnSlash s.data).map (fun l => (⟨l⟩ : String))).filter
    (fun c => c != "" && c != ".")

/-- Python `Path.resolve()` on a symlink-free file system, acting on the
component list of an absolute path: `..` pops the previous component and is a
no-op at the root. -/
def resolveComps (comps : List String) : List String :=
  comps.foldl (fun acc c => if c = ".." then acc.dropLast else acc ++ [c]) []

/-- Render a relative component list the way `str()` of a pathlib path does. -/
def renderRel : List String → String
  | [] => ""
  | [c] => c
  | c :: cs => c ++ "/" ++ renderRel cs

/-- Render an absolute component list the way `str()` of a pathlib path does:
`[]` is the root `"/"`. -/
def renderAbs (comps : List String) : String :=
  "/" ++ renderRel comps

/-- Python `s.startswith(pre)`: code-point prefix test. -/
def strStartsWith (s pre : String) : Bool :=
  pre.data.isPrefixOf s.data

/-- Python `Path(...).suffix` of a final path component `name`:
with `i = name.rfind('.')`, return `name[i:]` when `0 < i < len(name) - 1`,
else the empty string. -/
def suffix (name : String) : String :=
  let cs := name.data
  let revAfter := cs.reverse.takeWhile (fun c => c != '.')
  if revAfter.length = cs.length then ""
  else
    let i := cs.length - 1 - revAfter.length
    if 0 < i ∧ i < cs.length - 1 then ⟨cs.drop i⟩ else ""

/-- ASCII lowercasing of one character, as `str.lower` acts on ASCII (the
only characters the comparison in `_is_html_file` can be sensitive to). -/
def charLower (c : Char) : Char :=
  if 'A' ≤ c ∧ c ≤ 'Z' then Char.ofNat (c.toNat + 32) else c

/-- Python `s.lower()` (ASCII fragment). -/
def strLower (s : String) : String :=
  ⟨s.data.map charLower⟩

/-- The handler's `_is_html_file`: `file_path.suffix.lower() in [".html", ".htm"]`. -/
def is_html_file (name : String) : Bool :=
  ([".html", ".htm"] : List String).contains (strLower (suffix name))

/-- Python `Path.name` of an absolute component list (empty for the root). -/
def lastName (comps : List String) : String :=
  (comps.getLast?).getD ("")

/-- An HTTP response: status code, headers in emission order, body bytes. -/
structure Response where
  status : Nat
  headers : List (String × String)
  body : List Nat
deriving DecidableEq, Repr

/-- UTF-8 encoding of one code point, as byte values. -/
def utf8Char (c : Char) : List Nat :=
  let n := c.toNat
  if n < 128 then [n]
  else if n < 2048 then [192 + n / 64, 128 + n % 64]
  else if n < 65536 then [224 + n / 4096, 128 + (n / 64) % 64, 128 + n % 64]
  else [240 + n / 262144, 128 + (n / 4096) % 64, 128 + (n / 64) % 64, 128 + n % 64]

/-- Python `s.encode("utf-8")` as a byte list. -/
def utf8 (s : String) : List Nat :=
  (s.data.map utf8Char).flatten

/-- The f-string built by `_send_error` for the error page body. -/
def error_html (code : Nat) (message : String) : String :=
  "<!DOCTYPE html>\n<html>\n<head>\n    <title>Error " ++ toString code ++
  "</title>\n</head>\n<body>\n    <h1>Error " ++ toString code ++
  "</h1>\n    <p>" ++ message ++
  "</p>\n    <p><a href=\"/\">Back to index</a></p>\n</body>\n</html>"

/-- The handler's `_send_error`: one explicit header (Content-Type) and the
minimal HTML error page as body. -/
def send_error (code : Nat) (message : String) : Response :=
  { status := code
    headers := [("Content-Type", "text/html; charset=utf-8")]
    body := utf8 (error_html code message) }

/-- The handler's `_serve_html_file`: on a successful read, a 200 response
with the file bytes and the five explicit headers; a failed read is caught
and answered with 500 "Error reading file". -/
def serve_html_file (content : List Nat) (readOk : Bool) : Response :=
  if readOk then
    { status := 200
      headers := [("Content-Type", "text/html; charset=utf-8"),
                  ("Content-Length", toString content.length),
                  ("Cache-Control", "no-cache, no-store, must-revalidate"),
                  ("Pragma", "no-cache"),
                  ("Expires", "0")]
      body := content }
  else send_error 500 "Error reading file"

/-- The pattern `*.html` as `pathlib.Path.glob` matches it (fnmatch translate
of `*.html`, hidden files included): the name ends with `.html`. -/
def globHtml (name : String) : Bool :=
  (".html" : String).data.isSuffixOf name.data

/-- Lexicographic less-or-equal on character lists, by code point: the order
Python string comparison (and hence `list.sort()` on `str`) uses. -/
def charListLe : List Char → List Char → Bool
  | [], _ => true
  | _ :: _, [] => false
  | a :: as, b :: bs =>
    if a < b then true else if b < a then false else charListLe as bs

/-- Python `a <= b` on strings: lexicographic by code point. -/
def strLe (a b : String) : Bool :=
  charListLe a.data b.data

/-- The listing built by `_serve_index`: the names of the children of the
served root that match `*.html` and are regular files, sorted ascending
(`html_files.sort()`, here realized as an insertion sort by the same total
order). -/
def html_files (fs : Entry) (root : List String) : List String :=
  match lookup fs root with
  | some (.dir es) =>
    List.insertionSort (fun a b => strLe a b = true)
      ((es.filter (fun p => globHtml p.1 && is_file p.2)).map Prod.fst)
  | _ => []

/-- The f-string assembled by `_create_index_html`. -/
def create_index_html (files : List String) : String :=
  "<!DOCTYPE html>\n<html>\n<head>\n    <title>HTML Files</title>\n</head>\n<body>\n    <h1>HTML Files</h1>\n    <ul>" ++
  String.join (files.map (fun n =>
    "\n        <li><a href=\"/" ++ n ++ "\">" ++ n ++ "</a></li>")) ++
  "\n    </ul>\n</body>\n</html>"

/-- The handler's `_serve_index`: 200, Content-Type and Content-Length, body
the UTF-8 encoding of the generated index page. -/
def serve_index (fs : Entry) (root : List String) : Response :=
  { status := 200
    headers := [("Content-Type", "text/html; charset=utf-8"),
                ("Content-Length", toString (utf8 (create_index_html (html_files fs root))).length)]
    body := utf8 (create_index_html (html_files fs root)) }

/-- The handler's `do_GET` on the decoded request path `path`, over file
system `fs` with canonical served root `root`; `readOk` is the outcome of
the file read in `_serve_html_file`.  Mirrors the source's branch order:
root path, security check (`str(file_path).startswith(str(root))` on the
resolved path), existence, regular-file, extension, serve. -/
def do_GET (fs : Entry) (root : List String) (path : String) (readOk : Bool) : Response :=
  if path = "/" then serve_index fs root
  else if strStartsWith (renderAbs (resolveComps (root ++ pathParts (lstripSlash path))))
          (renderAbs root) = false then
    send_error 403 "Access denied"
  else
    match lookup fs (resolveComps (root ++ pathParts (lstripSlash path))) with
    | none => send_error 404 "File not found"
    | some (.dir _) => send_error 403 "Not a file"
    | some (.file content) =>
      if is_html_file (lastName (resolveComps (root ++ pathParts (lstripSlash path)))) then
        serve_html_file content readOk
      else send_error 403 "Only HTML files are allowed"

/-- Zero-pad a number to two digits (`%02d`). -/
def pad2 (n : Nat) : String :=
  if n < 10 then "0" ++ toString n else toString n

/-- Zero-pad a number to four digits (`%04d`). -/
def pad4 (n : Nat) : String :=
  if n < 1000 then
    if n < 100 then
      if n < 10 then "000" ++ toString n else "00" ++ toString n
    else "0" ++ toString n
  else toString n

/-- English weekday abbreviations, Monday first, as `email.utils.formatdate`
uses them. -/
def weekdayName (w : Nat) : String :=
  (["Mon", "Tue", "Wed", "Thu", "Fri", "Sat", "Sun"].getD w ("Mon"))

/-- English month abbreviations as `email.utils.formatdate` uses them. -/
def monthName (m : Nat) : String :=
  (["Jan", "Feb", "Mar", "Apr", "May", "Jun",
    "Jul", "Aug", "Sep", "Oct", "Nov", "Dec"].getD (m - 1) "Jan")

/-- Gregorian (year, month, day) from days since the Unix epoch: the standard
civil-from-days conversion, i.e. `time.gmtime`'s calendar part. -/
def civilFromDays (days : Nat) : Nat × Nat × Nat :=
  let z := days + 719468
  let era := z / 146097
  let doe := z % 146097
  let yoe := (doe - doe / 1460 + doe / 36524 - doe / 146096) / 365
  let y := yoe + era * 400
  let doy := doe - (365 * yoe + yoe / 4 - yoe / 100)
  let mp := (5 * doy + 2) / 153
  let d := doy - (153 * mp + 2) / 5 + 1
  let m := if mp < 10 then mp + 3 else mp - 9
  (if m ≤ 2 then y + 1 else y, m, d)

/-- The `Date` header value `email.utils.formatdate(t, usegmt=True)` for Unix
time `t`: `"Www, dd Mmm yyyy hh:mm:ss GMT"`. -/
def httpDate (t : Nat) : String :=
  let days := t / 86400
  let secs := t % 86400
  let ymd := civilFromDays days
  weekdayName ((days + 3) % 7) ++ ", " ++ pad2 ymd.2.2 ++ " " ++
    monthName ymd.2.1 ++ " " ++ pad4 ymd.1 ++ " " ++
    pad2 (secs / 3600) ++ ":" ++ pad2 ((secs % 3600) / 60) ++ ":" ++
    pad2 (secs % 60) ++ " GMT"

/-- The two headers `BaseHTTPRequestHandler.send_response` always emits
(Server with the version string, Date with the current time) followed by the
handler-set headers, in wire order. -/
def wire_headers (serverV : String) (now : Nat) (r : Response) : List (String × String) :=
  ("Server", serverV) :: ("Date", httpDate now) :: r.headers

/-- A response as actually written to the socket: handler response plus the
library's Server and Date headers. -/
def wire_response (serverV : String) (now : Nat) (r : Response) : Response :=
  { r with headers := wire_headers serverV now r }

/-- One request of the serving loop: its decoded path and its read outcome. -/
def handle_request (fs : Entry) (root : List String) (req : String × Bool) : Response :=
  do_GET fs root req.1 req.2

/-- The serving loop `httpd.serve_forever()`: requests are handled one after
the other, each independently of the others. -/
def serve_forever (fs : Entry) (root : List String) (reqs : List (String × Bool)) : List Response :=
  reqs.map (handle_request fs root)

/-- A well-formed directory-entry name: what a POSIX file name can be (and a
canonical root component is): nonempty, not a dot or dot-dot, no slash. -/
def cleanComp (c : String) : Prop :=
  c ≠ "" ∧ c ≠ "." ∧ c ≠ ".." ∧ '/' ∉ c.data

instance (c : String) : Decidable (cleanComp c) := by
  unfold cleanComp; infer_instance

/-- All components of a list are well-formed names. -/
def cleanComps (l : List String) : Prop :=
  ∀ c ∈ l, cleanComp c

instance (l : List String) : Decidable (cleanComps l) := by
  unfold cleanComps; infer_instance

/-- The spec's notion of descendant: the canonical served root's components
are a component-wise prefix of the canonical path.  (Stated from the spec,
for comparison with the code's string-level `startswith` check.) -/
def specDescendant (root p : List String) : Prop :=
  root <+: p

instance (root p : List String) : Decidable (specDescendant root p) := by
  unfold specDescendant; infer_instance

/-- Concrete demonstration tree: a served root `/srv` holding an HTML file,
a text file and a subdirectory. -/
def fsDemo : Entry :=
  .dir [("srv", .dir [("f.html", .file [104]), ("g.txt", .file [1]), ("sub", .dir [])])]

/-- Concrete tree with a served root `/a/b` and a sibling directory `/a/bc`
whose name extends the root's name. -/
def fsTraversal : Entry :=
  .dir [("a", .dir [("b", .dir []), ("bc", .dir [("x.html", .file [104, 105])])])]

/-- Concrete tree whose served root holds a single file named exactly `.html`. -/
def fsHidden : Entry :=
  .dir [(".html", .file [104])]

/-- Splitting a slash-free character list yields a single component. -/
theorem splitOnSlash_no_slash (cs : List Char) (h : '/' ∉ cs) : splitOnSlash cs = [cs] := by
  induction cs with
  | nil => rfl
  | cons c cs ih =>
    have hc : ¬ c = '/' := fun he => h (by simp [he])
    have h' : '/' ∉ cs := fun hm => h (by simp [hm])
    simp [splitOnSlash, hc, ih h']

/-- A slash-free name other than the empty string and dot is its own
single component list. -/
theorem pathParts_single (n : String) (h1 : n ≠ "") (h2 : n ≠ ".") (h3 : '/' ∉ n.data) :
    pathParts n = [n] := by
  unfold pathParts
  rw [splitOnSlash_no_slash n.data h3]
  have hmk : (⟨n.data⟩ : String) = n := rfl
  simp [hmk, List.filter_cons, h1, h2]

/-- Dropping leading slashes from a slash-free list is the identity. -/
theorem dropWhile_no_slash (cs : List Char) (h : '/' ∉ cs) :
    cs.dropWhile (fun c => c = '/') = cs := by
  cases cs with
  | nil => rfl
  | cons c cs =>
    have hc : ¬ (c = '/') := fun he => h (by simp [he])
    simp [List.dropWhile_cons, hc]

/-- Stripping the single leading slash from `/name` for a slash-free name. -/
theorem lstripSlash_slash (n : String) (h : '/' ∉ n.data) :
    lstripSlash ("/" ++ n) = n := by
  unfold lstripSlash
  have hd : (("/" ++ n).data).dropWhile (fun c => c = '/') = n.data := by
    rw [String.data_append]
    show List.dropWhile _ ('/' :: n.data) = n.data
    rw [List.dropWhile_cons]
    simp [dropWhile_no_slash n.data h]
  exact congrArg String.mk hd

/-- Folding the `..`-resolution step over dot-dot-free components appends
them unchanged. -/
theorem foldl_resolve_no_dots (l : List String) :
    ∀ (acc : List String), (∀ c ∈ l, c ≠ "..") →
    l.foldl (fun acc c => if c = ".." then acc.dropLast else acc ++ [c]) acc = acc ++ l := by
  induction l with
  | nil => intro acc _; simp
  | cons c cs ih =>
    intro acc h
    have hc : ¬ c = ".." := h c (by simp)
    have h' : ∀ x ∈ cs, x ≠ ".." := fun x hx => h x (by simp [hx])
    simp only [List.foldl_cons, if_neg hc]
    rw [ih (acc ++ [c]) h']
    simp

/-- Resolution is the identity on dot-dot-free component lists. -/
theorem resolveComps_clean (l : List String) (h : ∀ c ∈ l, c ≠ "..") : resolveComps l = l := by
  unfold resolveComps
  rw [foldl_resolve_no_dots l [] h]
  simp

/-- The rendering of a component list is a character-prefix of the rendering
of any extension of it. -/
theorem renderRel_data_pre : ∀ (xs ys : List String),
    (renderRel xs).data <+: (renderRel (xs ++ ys)).data := by
  intro xs
  induction xs with
  | nil =>
    intro ys
    exact List.nil_prefix
  | cons x xs ih =>
    intro ys
    cases xs with
    | nil =>
      cases ys with
      | nil => exact List.prefix_refl _
      | cons y ys' =>
        show x.data <+: ((x ++ "/") ++ renderRel (y :: ys')).data
        rw [String.data_append, String.data_append, List.append_assoc]
        exact List.prefix_append _ _
    | cons x' xs' =>
      show ((x ++ "/") ++ renderRel (x' :: xs')).data <+:
           ((x ++ "/") ++ renderRel ((x' :: xs') ++ ys)).data
      rw [String.data_append, String.data_append]
      exact (List.prefix_append_right_inj _).mpr (ih ys)

/-- The code's security check always passes when the resolved path extends
the root's components: the rendered root string is a string prefix. -/
theorem strStartsWith_append (root rest : List String) :
    strStartsWith (renderAbs (root ++ rest)) (renderAbs root) = true := by
  unfold strStartsWith renderAbs
  rw [ List.isPrefixOf_iff_prefix]
  rw [String.data_append, String.data_append]
  show ('/' :: (renderRel root).data) <+: ('/' :: (renderRel (root ++ rest)).data)
  exact (List.prefix_append_right_inj ['/']).mpr (renderRel_data_pre root rest)

/-- Tree lookup splits over list append. -/
theorem lookup_append : ∀ (fs : Entry) (l₁ l₂ : List String),
    lookup fs (l₁ ++ l₂) = (lookup fs l₁).bind (fun e => lookup e l₂) := by
  intro fs l₁
  induction l₁ generalizing fs with
  | nil => intro l₂; simp [lookup]
  | cons c cs ih =>
    intro l₂
    cases fs with
    | file content => simp [lookup]
    | dir es =>
      show lookup (.dir es) (c :: (cs ++ l₂)) = _
      simp only [lookup]
      cases findEntry es c with
      | none => simp
      | some e => simp [ih e]

/-- With duplicate-free names, a member entry is what `findEntry` returns. -/
theorem findEntry_eq_of_mem (es : List (String × Entry)) (n : String) (e : Entry)
    (hmem : (n, e) ∈ es) (hnd : (es.map Prod.fst).Nodup) : findEntry es n = some e := by
  induction es with
  | nil => cases hmem
  | cons p rest ih =>
    obtain ⟨m, e'⟩ := p
    rw [List.map_cons] at hnd
    rcases List.mem_cons.mp hmem with heq | hmem'
    · have h1 : m = n := (congrArg Prod.fst heq).symm
      have h2 : e' = e := (congrArg Prod.snd heq).symm
      subst h1; subst h2
      simp [findEntry]
    · have hnm : ¬ m = n := by
        intro he
        subst he
        exact (List.nodup_cons.mp hnd).1 (List.mem_map.mpr ⟨(m, e), hmem', rfl⟩)
      simp only [findEntry, if_neg hnm]
      exact ih hmem' (List.nodup_cons.mp hnd).2

/-- A name of the form `stem + ".html"` with nonempty stem has Python suffix
exactly `".html"`. -/
theorem suffix_of_stem (name : String) (stem : List Char) (hne : stem ≠ [])
    (hdata : name.data = stem ++ ['.', 'h', 't', 'm', 'l']) : suffix name = ".html" := by
  have hrev : name.data.reverse = 'l' :: 'm' :: 't' :: 'h' :: '.' :: stem.reverse := by
    rw [hdata]
    simp [List.reverse_append]
  have htw : name.data.reverse.takeWhile (fun c => c != '.') = ['l', 'm', 't', 'h'] := by
    rw [hrev]
    simp [List.takeWhile_cons]
  have hlen : name.data.length = stem.length + 5 := by
    rw [hdata]; simp
  have hpos : 0 < stem.length := List.length_pos.mpr hne
  simp only [suffix]
  rw [htw, hlen]
  rw [if_neg (by simp only [List.length_cons, List.length_nil]; omega)]
  have hi : stem.length + 5 - 1 - (['l', 'm', 't', 'h'] : List Char).length = stem.length := by
    simp only [List.length_cons, List.length_nil]
    omega
  rw [hi, if_pos (by omega)]
  have hdrop : name.data.drop stem.length = ['.', 'h', 't', 'm', 'l'] := by
    rw [hdata]
    exact List.drop_left stem _
  rw [hdrop]

/-- Such a name passes the handler's extension check. -/
theorem is_html_file_of_stem (name : String) (stem : List Char) (hne : stem ≠ [])
    (hdata : name.data = stem ++ ['.', 'h', 't', 'm', 'l']) : is_html_file name = true := by
  unfold is_html_file
  rw [suffix_of_stem name stem hne hdata]
  rfl

/-- Code-point order on character lists is total. -/
theorem charListLe_total : ∀ (as bs : List Char), charListLe as bs = true ∨ charListLe bs as = true := by
  intro as
  induction as with
  | nil => intro bs; left; rfl
  | cons a as ih =>
    intro bs
    cases bs with
    | nil => right; rfl
    | cons b bs' =>
      rcases lt_trichotomy a b with h | h | h
      · left; simp [charListLe, h]
      · subst h
        rcases ih bs' with h' | h'
        · left; simp [charListLe, h']
        · right; simp [charListLe, h']
      · right; simp [charListLe, h]

/-- Code-point order on character lists is transitive. -/
theorem charListLe_trans : ∀ (as bs cs : List Char),
    charListLe as bs = true → charListLe bs cs = true → charListLe as cs = true := by
  intro as
  induction as with
  | nil => intro bs cs _ _; rfl
  | cons a as ih =>
    intro bs cs h1 h2
    cases bs with
    | nil => simp [charListLe] at h1
    | cons b bs' =>
      cases cs with
      | nil => simp [charListLe] at h2
      | cons c cs' =>
        by_cases hab : a < b
        · by_cases hbc : b < c
          · simp [charListLe, lt_trans hab hbc]
          · by_cases hcb : c < b
            · simp [charListLe, hbc, hcb] at h2
            · have hbceq : b = c := le_antisymm (not_lt.mp hcb) (not_lt.mp hbc)
              subst hbceq
              simp [charListLe, hab]
        · by_cases hba : b < a
          · simp [charListLe, hab, hba] at h1
          · have habeq : a = b := le_antisymm (not_lt.mp hba) (not_lt.mp hab)
            subst habeq
            simp only [charListLe, lt_self_iff_false, if_neg, if_false] at h1
            by_cases hac : a < c
            · simp [charListLe, hac]
            · by_cases hca : c < a
              · simp [charListLe, hac, hca] at h2
              · have haceq : a = c := le_antisymm (not_lt.mp hca) (not_lt.mp hac)
                subst haceq
                simp only [charListLe, lt_self_iff_false, if_neg, if_false] at h2 ⊢
                exact ih bs' cs' h1 h2

instance : IsTotal String (fun a b => strLe a b = true) :=
  ⟨fun a b => charListLe_total a.data b.data⟩

instance : IsTrans String (fun a b => strLe a b = true) :=
  ⟨fun a b c => charListLe_trans a.data b.data c.data⟩

/-- Characterization of `do_GET` on a request `/name` for a well-formed name
under a canonical root: the path computation collapses to a direct lookup of
`name` in the served root, the security check passes, and the branch taken
is decided by the looked-up entry and the extension check. -/
theorem do_GET_named (fs : Entry) (root : List String) (name : String) (rk : Bool)
    (hroot : cleanComps root) (hname : cleanComp name) :
    do_GET fs root ("/" ++ name) rk =
      match lookup fs (root ++ [name]) with
      | none => send_error 404 "File not found"
      | some (.dir _) => send_error 403 "Not a file"
      | some (.file content) =>
        if is_html_file name then serve_html_file content rk
        else send_error 403 "Only HTML files are allowed" := by
  obtain ⟨hne, hdot, hdots, hns⟩ := hname
  have hpath : ¬ ("/" ++ name = "/") := by
    intro he
    have hd := congrArg String.data he
    rw [String.data_append] at hd
    have h0 : name.data = [] := by simpa using hd
    exact hne (congrArg String.mk h0)
  have hstrip : lstripSlash ("/" ++ name) = name := lstripSlash_slash name hns
  have hparts : pathParts name = [name] := pathParts_single name hne hdot hns
  have hres : resolveComps (root ++ [name]) = root ++ [name] := by
    apply resolveComps_clean
    intro c hc
    rcases List.mem_append.mp hc with h | h
    · exact (hroot c h).2.2.1
    · simp at h; subst h; exact hdots
  unfold do_GET
  rw [if_neg hpath, hstrip, hparts, hres, strStartsWith_append root [name]]
  rw [if_neg (by simp)]
  simp only [lastName, List.getLast?_concat, Option.getD]

/-- A request `/name` for a stored regular file whose name is a nonempty stem
followed by `.html` reaches `_serve_html_file` with the file's bytes. -/
theorem do_GET_file_ok (fs : Entry) (root : List String) (name : String)
    (content : List Nat) (rk : Bool) (stem : List Char)
    (hroot : cleanComps root) (hname : cleanComp name)
    (hstem : stem ≠ []) (hdata : name.data = stem ++ ['.', 'h', 't', 'm', 'l'])
    (hlk : lookup fs (root ++ [name]) = some (.file content)) :
    do_GET fs root ("/" ++ name) rk = serve_html_file content rk := by
  rw [do_GET_named fs root name rk hroot hname, hlk]
  simp [is_html_file_of_stem name stem hstem hdata]

/-- Membership in the generated index listing: exactly the names of regular
files in the served root that end in `.html`. -/
theorem mem_html_files (fs : Entry) (root : List String) (es : List (String × Entry))
    (hdir : lookup fs root = some (.dir es)) (n : String) :
    n ∈ html_files fs root ↔ ∃ c, (n, Entry.file c) ∈ es ∧ globHtml n = true := by
  unfold html_files
  rw [hdir]
  rw [ List.mem_insertionSort]
  simp only [List.mem_map, List.mem_filter, Bool.and_eq_true]
  constructor
  · rintro ⟨⟨m, e⟩, ⟨hmem, hglob, hfile⟩, rfl⟩
    cases e with
    | file c => exact ⟨c, hmem, hglob⟩
    | dir _ => simp [is_file] at hfile
  · rintro ⟨c, hmem, hglob⟩
    exact ⟨(n, .file c), ⟨hmem, hglob, rfl⟩, rfl⟩

/-- The generated index listing is sorted by the code-point order. -/
theorem html_files_sorted (fs : Entry) (root : List String) :
    List.Sorted (fun a b => strLe a b = true) (html_files fs root) := by
  unfold html_files
  cases h : lookup fs root with
  | none => exact List.sorted_nil
  | some e =>
    cases e with
    | file c => exact List.sorted_nil
    | dir es => exact List.sorted_insertionSort _ _

/-- With duplicate-free directory names, the index listing has no duplicates. -/
theorem html_files_nodup (fs : Entry) (root : List String) (es : List (String × Entry))
    (hdir : lookup fs root = some (.dir es)) (hnd : (es.map Prod.fst).Nodup) :
    (html_files fs root).Nodup := by
  unfold html_files
  rw [hdir]
  have hsub : ((es.filter (fun p => globHtml p.1 && is_file p.2)).map Prod.fst).Sublist
      (es.map Prod.fst) :=
    List.Sublist.map _ (List.filter_sublist es)
  exact (List.perm_insertionSort _ _).symm.nodup (List.Nodup.sublist hsub hnd)

set_option maxRecDepth 200000

/-- C1: the spec demands that any request whose canonicalized path is not a
descendant of the served root receive 403 with no file body, traversal
sequences included.  The code instead compares rendered path strings with
`startswith`: with served root `/a/b` and a sibling directory `/a/bc`, the
request `/../bc/x.html` (which contains a traversal sequence) resolves to
`/a/bc/x.html`, which is not a descendant of the root but does extend the
root's string, so the handler answers 200 and serves the file body. -/
theorem C1_traversal_escapes_root :
    ".." ∈ pathParts (lstripSlash ("/../bc/x.html"))
    ∧ ¬ specDescendant ["a", "b"]
        (resolveComps (["a", "b"] ++ pathParts (lstripSlash ("/../bc/x.html"))))
    ∧ (do_GET fsTraversal ["a", "b"] ("/../bc/x.html") true).status = 200
    ∧ (do_GET fsTraversal ["a", "b"] ("/../bc/x.html") true).body = [104, 105] := by
  refine ⟨by decide, by decide, by decide, by decide⟩

/-- C2: a GET for `/f.html`, where `f.html` is a stored regular file directly
under the served root whose name is a nonempty stem followed by `.html`,
answers 200 with Content-Type `text/html; charset=utf-8`, Content-Length
equal to the byte length, the three no-cache headers, and the file's bytes
as body. -/
theorem C2_serves_html_file (fs : Entry) (root : List String) (name : String)
    (stem : List Char) (content : List Nat)
    (hroot : cleanComps root) (hname : cleanComp name)
    (hstem : stem ≠ []) (hdata : name.data = stem ++ ['.', 'h', 't', 'm', 'l'])
    (hlk : lookup fs (root ++ [name]) = some (.file content)) :
    do_GET fs root ("/" ++ name) true =
      { status := 200
        headers := [("Content-Type", "text/html; charset=utf-8"),
                    ("Content-Length", toString content.length),
                    ("Cache-Control", "no-cache, no-store, must-revalidate"),
                    ("Pragma", "no-cache"),
                    ("Expires", "0")]
        body := content } := by
  rw [do_GET_file_ok fs root name content true stem hroot hname hstem hdata hlk]
  rfl

/-- C2 witness: the file `f.html` with body byte 104 under root `/srv`. -/
theorem C2_witness :
    do_GET fsDemo ["srv"] ("/" ++ "f.html") true =
      { status := 200
        headers := [("Content-Type", "text/html; charset=utf-8"),
                    ("Content-Length", "1"),
                    ("Cache-Control", "no-cache, no-store, must-revalidate"),
                    ("Pragma", "no-cache"),
                    ("Expires", "0")]
        body := [104] } :=
  C2_serves_html_file fsDemo ["srv"] ("f.html") ['f'] [104]
    (by decide) (by decide) (by decide) rfl rfl

/-- C3: a GET for `/` answers 200 with Content-Type and Content-Length and
the rendered index page as body, and the listing it renders (one
`<li><a href="/name">name</a></li>` item per element, see
`create_index_html`) is sorted ascending, duplicate-free, and holds exactly
the names of the regular files directly in the served root that end in
`.html` (subdirectories excluded). -/
theorem C3_index_page (fs : Entry) (root : List String) (es : List (String × Entry))
    (rk : Bool)
    (hdir : lookup fs root = some (.dir es)) (hnd : (es.map Prod.fst).Nodup) :
    do_GET fs root ("/") rk =
      { status := 200
        headers := [("Content-Type", "text/html; charset=utf-8"),
                    ("Content-Length",
                      toString (utf8 (create_index_html (html_files fs root))).length)]
        body := utf8 (create_index_html (html_files fs root)) }
    ∧ List.Sorted (fun a b => strLe a b = true) (html_files fs root)
    ∧ (html_files fs root).Nodup
    ∧ (∀ n, n ∈ html_files fs root ↔ ∃ c, (n, Entry.file c) ∈ es ∧ globHtml n = true) :=
  ⟨rfl, html_files_sorted fs root, html_files_nodup fs root es hdir hnd,
    fun n => mem_html_files fs root es hdir n⟩

/-- C3 witness: the demonstration root `/srv`. -/
theorem C3_witness :
    do_GET fsDemo ["srv"] ("/") true =
      { status := 200
        headers := [("Content-Type", "text/html; charset=utf-8"),
                    ("Content-Length",
                      toString (utf8 (create_index_html (html_files fsDemo ["srv"]))).length)]
        body := utf8 (create_index_html (html_files fsDemo ["srv"])) }
    ∧ List.Sorted (fun a b => strLe a b = true) (html_files fsDemo ["srv"])
    ∧ (html_files fsDemo ["srv"]).Nodup
    ∧ (∀ n, n ∈ html_files fsDemo ["srv"] ↔
        ∃ c, (n, Entry.file c) ∈
            [("f.html", Entry.file [104]), ("g.txt", Entry.file [1]), ("sub", Entry.dir [])]
          ∧ globHtml n = true) :=
  C3_index_page fsDemo ["srv"]
    ([("f.html", Entry.file [104]), ("g.txt", Entry.file [1]), ("sub", Entry.dir [])])
    true rfl (by decide)

/-- C4 counterexample: a file named exactly `.html` is listed on the index
page (glob `*.html` matches it), but requesting `/.html` yields 403, not 200:
`Path('.html').suffix` is empty, so the extension check rejects it. -/
theorem C4_counterexample :
    ".html" ∈ html_files fsHidden []
    ∧ do_GET fsHidden [] ("/" ++ ".html") true = send_error 403 "Only HTML files are allowed"
    ∧ (do_GET fsHidden [] ("/" ++ ".html") true).status ≠ 200 := by
  refine ⟨by decide, by decide, by decide⟩

/-- C4 (amended): every filename listed on the index page other than the
single name `.html` round-trips: a GET for `/` + filename answers 200 with
that file's bytes and the standard file-serving headers. -/
theorem C4_roundtrip (fs : Entry) (root : List String) (es : List (String × Entry))
    (name : String) (content : List Nat)
    (hroot : cleanComps root) (hdir : lookup fs root = some (.dir es))
    (hclean : ∀ p ∈ es, cleanComp p.1) (hnd : (es.map Prod.fst).Nodup)
    (hmem : (name, Entry.file content) ∈ es) (hglob : globHtml name = true)
    (hne : name ≠ ".html") :
    name ∈ html_files fs root
    ∧ do_GET fs root ("/" ++ name) true =
      { status := 200
        headers := [("Content-Type", "text/html; charset=utf-8"),
                    ("Content-Length", toString content.length),
                    ("Cache-Control", "no-cache, no-store, must-revalidate"),
                    ("Pragma", "no-cache"),
                    ("Expires", "0")]
        body := content } := by
  have hnameclean : cleanComp name := hclean (name, .file content) hmem
  have hg : (".html" : String).data.isSuffixOf name.data = true := hglob
  have hsuf : (".html" : String).data <:+ name.data := List.isSuffixOf_iff_suffix.mp hg
  obtain ⟨stem, hstem⟩ := hsuf
  have h0 : stem ≠ [] := by
    intro h
    subst h
    apply hne
    have h2 : name.data = ['.', 'h', 't', 'm', 'l'] := by simpa using hstem.symm
    exact congrArg String.mk h2
  have hdata : name.data = stem ++ ['.', 'h', 't', 'm', 'l'] := hstem.symm
  have hlk : lookup fs (root ++ [name]) = some (.file content) := by
    rw [lookup_append, hdir]
    show lookup (.dir es) [name] = some (.file content)
    simp only [lookup]
    rw [findEntry_eq_of_mem es name (.file content) hmem hnd]
  refine ⟨(mem_html_files fs root es hdir name).mpr ⟨content, hmem, hglob⟩, ?_⟩
  rw [do_GET_file_ok fs root name content true stem hroot hnameclean h0 hdata hlk]
  rfl

/-- C4 witness: the listed file `f.html` round-trips. -/
theorem C4_witness :
    "f.html" ∈ html_files fsDemo ["srv"]
    ∧ do_GET fsDemo ["srv"] ("/" ++ "f.html") true =
      { status := 200
        headers := [("Content-Type", "text/html; charset=utf-8"),
                    ("Content-Length", "1"),
                    ("Cache-Control", "no-cache, no-store, must-revalidate"),
                    ("Pragma", "no-cache"),
                    ("Expires", "0")]
        body := [104] } :=
  C4_roundtrip fsDemo ["srv"]
    ([("f.html", Entry.file [104]), ("g.txt", Entry.file [1]), ("sub", Entry.dir [])])
    ("f.html") [104] (by decide) rfl (by decide) (by decide)
    (List.mem_cons_self _ _) rfl (by decide)

/-- C5: for a stored regular file directly under the served root, the
extension check decides the outcome: a name whose (case-insensitively
lowered) suffix is not `.html` or `.htm` gets 403 "Only HTML files are
allowed"; a name that passes the check is served. -/
theorem C5_extension_check (fs : Entry) (root : List String) (name : String)
    (content : List Nat) (rk : Bool)
    (hroot : cleanComps root) (hname : cleanComp name)
    (hlk : lookup fs (root ++ [name]) = some (.file content)) :
    (is_html_file name = false →
      do_GET fs root ("/" ++ name) rk = send_error 403 "Only HTML files are allowed")
    ∧ (is_html_file name = true →
      do_GET fs root ("/" ++ name) rk = serve_html_file content rk) := by
  constructor <;> intro h <;> rw [do_GET_named fs root name rk hroot hname, hlk] <;> simp [h]

/-- C5 witness: the stored text file `g.txt` is refused with 403. -/
theorem C5_witness :
    do_GET fsDemo ["srv"] ("/" ++ "g.txt") true = send_error 403 "Only HTML files are allowed" :=
  (C5_extension_check fsDemo ["srv"] ("g.txt") [1] true (by decide) (by decide) rfl).1 (by decide)

/-- C6: a request that passes the security check but whose resolved path is
not stored answers 404 "File not found"; the existence check runs before the
regular-file and extension checks, so a missing `.html` name gets 404, never
403. -/
theorem C6_missing_file (fs : Entry) (root : List String) (path : String) (rk : Bool)
    (hne : path ≠ "/")
    (hsec : strStartsWith (renderAbs (resolveComps (root ++ pathParts (lstripSlash path))))
        (renderAbs root) = true)
    (hmiss : lookup fs (resolveComps (root ++ pathParts (lstripSlash path))) = none) :
    do_GET fs root path rk = send_error 404 "File not found" := by
  unfold do_GET
  rw [if_neg hne, hsec, if_neg (by simp), hmiss]

/-- C6 witness: `/missing.html` under root `/srv`. -/
theorem C6_witness :
    do_GET fsDemo ["srv"] ("/missing.html") true = send_error 404 "File not found" :=
  C6_missing_file fsDemo ["srv"] ("/missing.html") true (by decide) (by decide) rfl

/-- C7 counterexample: the library's `send_response` stamps every response
with a `Date` header derived from the current time, so two runs of the same
request one second apart produce different wire responses — the spec's
parenthetical that there are no timestamp-derived headers is wrong. -/
theorem C7_counterexample :
    wire_response ("SimpleHTTP/0.6 Python/3.11.6") 0
        (do_GET fsDemo ["srv"] ("/" ++ "f.html") true)
      ≠ wire_response ("SimpleHTTP/0.6 Python/3.11.6") 1
        (do_GET fsDemo ["srv"] ("/" ++ "f.html") true) := by
  decide

/-- C7 (amended): two runs of the same GET against the same file-system
state agree on status, body, and every header except the library's
time-derived `Date` header (and agree entirely when the timestamps are
equal, since the handler itself is a pure function of the request and the
tree). -/
theorem C7_deterministic_modulo_date (fs : Entry) (root : List String) (path : String)
    (rk : Bool) (sv : String) (t₁ t₂ : Nat) :
    (wire_response sv t₁ (do_GET fs root path rk)).status
        = (wire_response sv t₂ (do_GET fs root path rk)).status
    ∧ (wire_response sv t₁ (do_GET fs root path rk)).body
        = (wire_response sv t₂ (do_GET fs root path rk)).body
    ∧ (wire_headers sv t₁ (do_GET fs root path rk)).filter (fun h => h.1 != "Date")
        = (wire_headers sv t₂ (do_GET fs root path rk)).filter (fun h => h.1 != "Date") := by
  refine ⟨rfl, rfl, ?_⟩
  simp [wire_headers, List.filter_cons]

/-- C8: a failed file read is caught inside the handler and answered with
500 "Error reading file", and the serving loop handles every other request
of the sequence exactly as it would alone — the failure neither crashes the
loop nor bleeds into neighboring requests. -/
theorem C8_read_failure_contained (fs : Entry) (root : List String) (name : String)
    (stem : List Char) (content : List Nat) (pre post : List (String × Bool))
    (hroot : cleanComps root) (hname : cleanComp name)
    (hstem : stem ≠ []) (hdata : name.data = stem ++ ['.', 'h', 't', 'm', 'l'])
    (hlk : lookup fs (root ++ [name]) = some (.file content)) :
    serve_forever fs root (pre ++ [("/" ++ name, false)] ++ post)
      = serve_forever fs root pre
        ++ [send_error 500 "Error reading file"]
        ++ serve_forever fs root post := by
  unfold serve_forever
  rw [List.map_append, List.map_append]
  congr 1
  congr 1
  simp only [List.map_cons, List.map_nil, handle_request]
  rw [do_GET_file_ok fs root name content false stem hroot hname hstem hdata hlk]
  rfl

/-- C8 witness: a read failure on `f.html` between two healthy requests. -/
theorem C8_witness :
    serve_forever fsDemo ["srv"]
        ([("/" ++ "f.html", true)] ++ [("/" ++ "f.html", false)] ++ [("/" ++ "g.txt", true)])
      = serve_forever fsDemo ["srv"] [("/" ++ "f.html", true)]
        ++ [send_error 500 "Error reading file"]
        ++ serve_forever fsDemo ["srv"] [("/" ++ "g.txt", true)] :=
  C8_read_failure_contained fsDemo ["srv"] ("f.html") ['f'] [104]
    ([("/" ++ "f.html", true)]) ([("/" ++ "g.txt", true)])
    (by decide) (by decide) (by decide) rfl rfl

/-- C9 counterexample: an error response does not carry exactly one header:
besides the handler's Content-Type, the library's `send_response` always
adds Server and Date, so the wire header list of a 404 has three entries,
one of them the Date header. -/
theorem C9_counterexample :
    do_GET fsDemo ["srv"] ("/missing.html") true = send_error 404 "File not found"
    ∧ (wire_headers ("SimpleHTTP/0.6 Python/3.11.6") 0
        (do_GET fsDemo ["srv"] ("/missing.html") true)).length = 3
    ∧ ("Date", httpDate 0) ∈ wire_headers ("SimpleHTTP/0.6 Python/3.11.6") 0
        (do_GET fsDemo ["srv"] ("/missing.html") true) := by
  refine ⟨by decide, by decide, by decide⟩

/-- C9 (amended): every error response has exactly one handler-set header,
Content-Type `text/html; charset=utf-8` — in particular no Content-Length
and no cache headers — while the wire response additionally starts with the
library's Server and Date headers; the body is the HTML error page, which
contains the status code, the message, and the link back to the index. -/
theorem C9_error_response_shape (code : Nat) (message : String) (sv : String) (t : Nat) :
    (send_error code message).headers = [("Content-Type", "text/html; charset=utf-8")]
    ∧ wire_headers sv t (send_error code message)
        = [("Server", sv), ("Date", httpDate t), ("Content-Type", "text/html; charset=utf-8")]
    ∧ (send_error code message).body = utf8 (error_html code message)
    ∧ (toString code).data <:+: (error_html code message).data
    ∧ message.data <:+: (error_html code message).data
    ∧ ("<a href=\"/\">Back to index</a>" : String).data <:+: (error_html code message).data := by
  refine ⟨rfl, rfl, rfl, ?_, ?_, ?_⟩
  · refine ⟨("<!DOCTYPE html>\n<html>\n<head>\n    <title>Error " : String).data,
      (("</title>\n</head>\n<body>\n    <h1>Error " ++ toString code ++ "</h1>\n    <p>"
        ++ message
        ++ "</p>\n    <p><a href=\"/\">Back to index</a></p>\n</body>\n</html>") : String).data,
      ?_⟩
    simp [error_html, String.data_append, List.append_assoc]
  · refine ⟨(("<!DOCTYPE html>\n<html>\n<head>\n    <title>Error " ++ toString code
        ++ "</title>\n</head>\n<body>\n    <h1>Error " ++ toString code
        ++ "</h1>\n    <p>") : String).data,
      ("</p>\n    <p><a href=\"/\">Back to index</a></p>\n</body>\n</html>" : String).data,
      ?_⟩
    simp [error_html, String.data_append, List.append_assoc]
  · have htail : ("</p>\n    <p><a href=\"/\">Back to index</a></p>\n</body>\n</html>" : String).data
        <:+ (error_html code message).data := by
      refine ⟨(("<!DOCTYPE html>\n<html>\n<head>\n    <title>Error " ++ toString code
        ++ "</title>\n</head>\n<body>\n    <h1>Error " ++ toString code
        ++ "</h1>\n    <p>" ++ message) : String).data, ?_⟩
      simp [error_html, String.data_append, List.append_assoc]
    have hlink : ("<a href=\"/\">Back to index</a>" : String).data
        <:+: ("</p>\n    <p><a href=\"/\">Back to index</a></p>\n</body>\n</html>" : String).data := by
      refine ⟨("</p>\n    <p>" : String).data, ("</p>\n</body>\n</html>" : String).data, ?_⟩
      decide
    exact hlink.trans htail.isInfix

/-- C10: the index page is produced exactly at the decoded path `/`; any
other decoded path whose resolved target is a stored directory inside the
served root — for example `//`, which resolves to the served root itself —
is answered 403 "Not a file", never with a listing. -/
theorem C10_index_only_at_root (fs : Entry) (root : List String) (path : String)
    (rk : Bool) (es : List (String × Entry))
    (hne : path ≠ "/")
    (hsec : strStartsWith (renderAbs (resolveComps (root ++ pathParts (lstripSlash path))))
        (renderAbs root) = true)
    (hdir : lookup fs (resolveComps (root ++ pathParts (lstripSlash path))) = some (.dir es)) :
    do_GET fs root ("/") rk = serve_index fs root
    ∧ do_GET fs root path rk = send_error 403 "Not a file" := by
  constructor
  · unfold do_GET
    rw [if_pos rfl]
  · unfold do_GET
    rw [if_neg hne, hsec, if_neg (by simp), hdir]

/-- C10 witness: the decoded path `//` resolves to the served root directory
itself and is refused with 403 "Not a file". -/
theorem C10_witness :
    do_GET fsDemo ["srv"] ("/") true = serve_index fsDemo ["srv"]
    ∧ do_GET fsDemo ["srv"] ("//") true = send_error 403 "Not a file" :=
  C10_index_only_at_root fsDemo ["srv"] ("//") true
    ([("f.html", Entry.file [104]), ("g.txt", Entry.file [1]), ("sub", Entry.dir [])])
    (by decide) (by decide) rfl

end HtmlServer
